import Mathlib

/-!
Shallow embedding of the live-audio-sanctuary session/moderation core
(`redisSessionManager` and `aiModerationService`).

Content strings are modelled as lists of characters (`Chars`).  The JS
`Date.now()` clock is modelled as an explicit `now : Nat` parameter, and
ISO timestamps as that same clock value.  The external AI classifier is
modelled as an oracle parameter (`AIOutcome`): either a parsed structured
response or a failure (API error / unparsable output), exactly the two
ways `performAIAnalysis`'s try/catch can resolve.  Redis commands issued
by the manager in redis mode are modelled as an explicit command trace
with a per-command success oracle; the in-process fallback branch
(`global.…` stores) is modelled as a pure state (`MemStore`).
-/

namespace Veilo

abbrev Chars := List Char

/-- JS `String.prototype.toLowerCase` restricted to the ASCII range used by the rules. -/
def lowerChars (s : Chars) : Chars := s.map Char.toLower

/-- Is `needle` a prefix of `hay` (character-exact)? -/
def isPrefixC : Chars → Chars → Bool
  | [], _ => true
  | _ :: _, [] => false
  | a :: as, b :: bs => a == b && isPrefixC as bs

/-- JS `String.prototype.includes`: does `needle` occur contiguously in `hay`? -/
def containsSub : Chars → Chars → Bool
  | [], needle => isPrefixC needle []
  | c :: t, needle => isPrefixC needle (c :: t) || containsSub t needle

/-- JS `String.prototype.indexOf` (−1 when absent), offset accumulator. -/
def idxOfAux : Chars → Chars → Nat → Int
  | [], needle, i => if isPrefixC needle [] then (i : Int) else -1
  | c :: t, needle, i => if isPrefixC needle (c :: t) then (i : Int) else idxOfAux t needle (i + 1)

/-- JS `String.prototype.indexOf`. -/
def idxOf (hay needle : Chars) : Int := idxOfAux hay needle 0

/-- The three spam regular expressions of `moderationRules.spam.patterns`. -/
inductive Pat
  | repeatRun
  | caps20
  | url
deriving DecidableEq

/-- Length of the run of copies of `c` at the head of `l`. -/
def runLen (c : Char) (l : Chars) : Nat := (l.takeWhile (fun d => d == c)).length

/-- Test for `(.)\1\x7b10,\x7d`: some character repeated at least 11 times in a row. -/
def patRepeatTest : Chars → Bool
  | [] => false
  | c :: t => (10 ≤ runLen c t) || patRepeatTest t

def upperAZ (c : Char) : Bool := ('A' ≤ c) && (c ≤ 'Z')

/-- Test for `[A-Z]\x7b20,\x7d`: at least 20 consecutive ASCII capitals. -/
def patCapsTest : Chars → Bool
  | [] => false
  | c :: t => (20 ≤ ((c :: t).takeWhile upperAZ).length) || patCapsTest t

def nonSpace (c : Char) : Bool := !c.isWhitespace

def nonSpaceHead : Chars → Bool
  | [] => false
  | c :: _ => nonSpace c

/-- Does a URL match start at the head of (already lowercased) `l`? -/
def urlAt (l : Chars) : Bool :=
  (isPrefixC ("http://".data) l && nonSpaceHead (l.drop 7)) ||
  (isPrefixC ("https://".data) l && nonSpaceHead (l.drop 8))

def patUrlScan : Chars → Bool
  | [] => false
  | c :: t => urlAt (c :: t) || patUrlScan t

/-- Test for `https?:\/\/[^\s]+` with the `i` flag (the source's `g` flag
statefulness across calls is not modelled; each test is a fresh match, which
is the per-analysis behaviour). -/
def patUrlTest (content : Chars) : Bool := patUrlScan (lowerChars content)

def patTest : Pat → Chars → Bool
  | .repeatRun, content => patRepeatTest content
  | .caps20, content => patCapsTest content
  | .url, content => patUrlTest content

/-- JS `RegExp.prototype.toString()` of each spam pattern. -/
def patToString : Pat → String
  | .repeatRun => "/(.)\\1\x7b10,\x7d/"
  | .caps20 => "/[A-Z]\x7b20,\x7d/"
  | .url => "/https?:\\/\\/[^\\s]+/gi"

/-- First full match of the repeated-character pattern (`content.match(p)?.[0]`). -/
def repeatFirst : Chars → Option String
  | [] => none
  | c :: t =>
    if 10 ≤ runLen c t then some (String.mk (c :: t.takeWhile (fun d => d == c)))
    else repeatFirst t

/-- First full match of the all-caps pattern. -/
def capsFirst : Chars → Option String
  | [] => none
  | c :: t =>
    if 20 ≤ ((c :: t).takeWhile upperAZ).length then some (String.mk ((c :: t).takeWhile upperAZ))
    else capsFirst t

/-- First full match of the URL pattern (case-insensitive scheme, greedy non-space tail). -/
def urlFirst : Chars → Option String
  | [] => none
  | c :: t =>
    if isPrefixC ("http://".data) (lowerChars (c :: t)) && nonSpaceHead ((c :: t).drop 7) then
      some (String.mk ((c :: t).take 7 ++ ((c :: t).drop 7).takeWhile nonSpace))
    else if isPrefixC ("https://".data) (lowerChars (c :: t)) && nonSpaceHead ((c :: t).drop 8) then
      some (String.mk ((c :: t).take 8 ++ ((c :: t).drop 8).takeWhile nonSpace))
    else urlFirst t

def patFirstMatch : Pat → Chars → Option String
  | .repeatRun, content => repeatFirst content
  | .caps20, content => capsFirst content
  | .url, content => urlFirst content

/-- Numeric severity table `getSeverityLevel`: `\x7b none: 0, low: 1, medium: 2, high: 3, critical: 4 \x7d[severity] || 0`. -/
def getSeverityLevel (s : String) : Nat :=
  if s == "none" then 0
  else if s == "low" then 1
  else if s == "medium" then 2
  else if s == "high" then 3
  else if s == "critical" then 4
  else 0

/-- The larger of two severity strings under `getSeverityLevel`, keeping the
first on ties — the replacement policy `if (level b > level a) then b else a`. -/
def sevMax (a b : String) : String :=
  if getSeverityLevel b > getSeverityLevel a then b else a

/-- A matched-rule flag: keyword flags carry the keyword and its position,
pattern flags the pattern source and first match, AI flags a category and reason. -/
inductive Flag
  | kw (type : String) (keyword : String) (position : Int)
  | pat (type : String) (patternStr : String) (matched : Option String)
  | ai (type : String) (reason : String)
deriving DecidableEq

/-- Result record of `applyRuleBasedModeration`. -/
structure RuleResult where
  flags : List Flag
  severity : String
  action : String
  confidence : ℚ
  definitive : Bool
deriving DecidableEq

/-- One category of `this.moderationRules`. -/
structure RuleCat where
  category : String
  keywords : List String
  patterns : List Pat
  severity : String
  action : String
deriving DecidableEq

def apos : Char := Char.ofNat 39

def crisisRule : RuleCat :=
  { category := "crisis_detection"
    keywords := ["suicide", "kill myself", "end it all", "not worth living",
                 "hurt myself", "self harm", "cutting", "overdose",
                 "want to die", "better off dead",
                 "can" ++ apos.toString ++ "t take it anymore"]
    patterns := []
    severity := "critical"
    action := "immediate_intervention" }

def harassmentRule : RuleCat :=
  { category := "harassment"
    keywords := ["hate", "kill you", "threat", "violence", "attack",
                 "racist", "sexist", "homophobic", "transphobic"]
    patterns := []
    severity := "high"
    action := "warn_and_monitor" }

def spamRule : RuleCat :=
  { category := "spam"
    keywords := []
    patterns := [Pat.repeatRun, Pat.caps20, Pat.url]
    severity := "medium"
    action := "auto_filter" }

def inappropriateRule : RuleCat :=
  { category := "inappropriate_content"
    keywords := ["explicit", "sexual", "drug dealing", "illegal"]
    patterns := []
    severity := "medium"
    action := "content_filter" }

/-- Rule table `this.moderationRules`, in `Object.entries` iteration (insertion) order. -/
def moderationRules : List RuleCat :=
  [crisisRule, harassmentRule, spamRule, inappropriateRule]

/-- Keyword branch of the rule loop: on a match, push a flag, then replace
severity/action/confidence (and set `definitive`) only when the rule severity
is strictly greater than the running one. -/
def stepKeyword (cat : RuleCat) (lower : Chars) (r : RuleResult) (kw : String) : RuleResult :=
  if containsSub lower (lowerChars kw.data) then
    let r1 := { r with flags := r.flags ++ [Flag.kw cat.category kw (idxOf lower (lowerChars kw.data))] }
    if getSeverityLevel cat.severity > getSeverityLevel r1.severity then
      { r1 with severity := cat.severity, action := cat.action,
                confidence := (0.8 : ℚ), definitive := cat.severity == "critical" }
    else r1
  else r

/-- Pattern branch of the rule loop: tested against the original content;
confidence 0.7 on replacement; `definitive` is not touched here. -/
def stepPattern (cat : RuleCat) (content : Chars) (r : RuleResult) (p : Pat) : RuleResult :=
  if patTest p content then
    let r1 := { r with flags := r.flags ++ [Flag.pat cat.category (patToString p) (patFirstMatch p content)] }
    if getSeverityLevel cat.severity > getSeverityLevel r1.severity then
      { r1 with severity := cat.severity, action := cat.action, confidence := (0.7 : ℚ) }
    else r1
  else r

/-- One iteration of the `for (const [category, rule] of Object.entries(...))` loop. -/
def processCat (content lower : Chars) (r : RuleResult) (cat : RuleCat) : RuleResult :=
  cat.patterns.foldl (stepPattern cat content) (cat.keywords.foldl (stepKeyword cat lower) r)

def initRuleResult : RuleResult :=
  { flags := [], severity := "none", action := "none", confidence := 0, definitive := false }

/-- Source function `applyRuleBasedModeration(content)`. -/
def applyRuleBasedModeration (content : Chars) : RuleResult :=
  moderationRules.foldl (processCat content (lowerChars content)) initRuleResult

/-- Does a category match the content (some keyword in the lowercased content,
or some pattern matching the raw content)? -/
def catMatchesB (content lower : Chars) (cat : RuleCat) : Bool :=
  cat.keywords.any (fun kw => containsSub lower (lowerChars kw.data)) ||
  cat.patterns.any (fun p => patTest p content)

/-- The rules matched by a content, in table order. -/
def matchedRules (content : Chars) : List RuleCat :=
  moderationRules.filter (catMatchesB content (lowerChars content))

/-- Fields of the classifier's parsed JSON response; `none` models an absent
(or `undefined`) field, defaulted with `||` in the source. -/
structure AIRaw where
  severity : Option String
  flags : Option (List Flag)
  action : Option String
  confidence : Option ℚ
  supportiveResponse : Option String
  details : Option String
deriving DecidableEq

/-- Resolution of one external classifier call: a parsed structured response,
or any error (API failure or unparsable output), which the source's
try/catch in `performAIAnalysis` collapses into one fallback. -/
inductive AIOutcome
  | ok (raw : AIRaw)
  | fail
deriving DecidableEq

/-- Return record of `performAIAnalysis`. -/
structure AIResult where
  severity : String
  flags : List Flag
  action : String
  confidence : ℚ
  supportiveResponse : Option String
  details : Option String
  error : Option String
deriving DecidableEq

/-- Source function `performAIAnalysis`: defaults the parsed fields, or returns the catch-branch
fallback (`severity none`, empty flags, confidence 0) — it never throws. -/
def performAIAnalysis : AIOutcome → AIResult
  | .ok raw =>
    { severity := raw.severity.getD "none"
      flags := raw.flags.getD []
      action := raw.action.getD "none"
      confidence := raw.confidence.getD 0
      supportiveResponse := raw.supportiveResponse
      details := raw.details
      error := none }
  | .fail =>
    { severity := "none", flags := [], action := "none", confidence := 0,
      supportiveResponse := none, details := none,
      error := some "AI analysis unavailable" }

/-- The `context` argument of `analyzeContent`. -/
structure Ctx where
  sessionId : Option String
  participantId : Option String
deriving DecidableEq

/-- The analysis/verdict record built by `analyzeContent`.  `timestamp` models
`new Date().toISOString()` as the clock value; `aiAnalysis` holds
`aiResult.details` when the AI stage ran. -/
structure Analysis where
  content : Chars
  timestamp : Nat
  severity : String
  flags : List Flag
  action : String
  confidence : ℚ
  sessionId : Option String
  participantId : Option String
  aiAnalysis : Option String
  error : Option String
deriving DecidableEq

/-- The event payload `aiModerationService.logModerationEvent` hands to the
session manager (everything but the manager-added `sessionId`/`timestamp`/`id`). -/
structure MEventIn where
  type : String
  participantId : Option String
  content : Chars
  severity : String
  flags : List Flag
  action : String
  confidence : ℚ
  aiAnalysis : Option String
deriving DecidableEq

/-- A stored moderation log entry (`\x7b ...event, sessionId, timestamp, id \x7d`). -/
structure ModEvent where
  ev : MEventIn
  sessionId : Option String
  timestamp : Nat
  id : String
deriving DecidableEq

/-- The alert object `executeModerationAction` passes to `storeEmergencyAlert`. -/
structure AlertInput where
  type : String
  participantId : String
  content : Chars
  severity : Option String
  autoResponse : Option String
deriving DecidableEq

/-- A stored emergency alert
(`\x7b ...alert, sessionId, timestamp, id, severity: alert.severity || 'high' \x7d`). -/
structure EmergencyAlert where
  type : String
  participantId : String
  content : Chars
  autoResponse : Option String
  sessionId : String
  timestamp : Nat
  id : String
  severity : String
deriving DecidableEq

/-- The in-process fallback stores (`global.moderationLogs`,
`global.emergencyAlerts`); `push` appends at the end. -/
structure MemStore where
  moderationLogs : List ModEvent
  emergencyAlerts : List EmergencyAlert
deriving DecidableEq

/-- JS `${x}` interpolation of a possibly-undefined value. -/
def jsShow : Option String → String
  | some s => s
  | none => "undefined"

/-- Fallback branch of `redisSessionManager.logModerationEvent`: build the
stored record and push it. -/
def logModerationEventMem (store : MemStore) (sessionId : Option String)
    (event : MEventIn) (now : Nat) : MemStore :=
  { store with moderationLogs := store.moderationLogs ++
      [{ ev := event, sessionId := sessionId, timestamp := now,
         id := "moderation:" ++ jsShow sessionId ++ ":" ++ toString now }] }

/-- Fallback branch of `redisSessionManager.storeEmergencyAlert`. -/
def storeEmergencyAlertMem (store : MemStore) (sessionId : String)
    (alert : AlertInput) (now : Nat) : MemStore :=
  { store with emergencyAlerts := store.emergencyAlerts ++
      [{ type := alert.type, participantId := alert.participantId,
         content := alert.content, autoResponse := alert.autoResponse,
         sessionId := sessionId, timestamp := now,
         id := "emergency:" ++ sessionId ++ ":" ++ toString now,
         severity := alert.severity.getD "high" }] }

/-- Helper `aiModerationService.logModerationEvent`: wraps the analysis into the
event record and stores it under the analysis's session id. -/
def logAnalysisEvent (store : MemStore) (a : Analysis) (now : Nat) : MemStore :=
  logModerationEventMem store a.sessionId
    { type := "content_analysis", participantId := a.participantId,
      content := a.content, severity := a.severity, flags := a.flags,
      action := a.action, confidence := a.confidence, aiAnalysis := a.aiAnalysis }
    now

/-- Return bundle of `analyzeContent`: the verdict, whether the AI stage was
invoked, and the store after the final `logModerationEvent`. -/
structure AnalyzeOut where
  analysis : Analysis
  aiUsed : Bool
  store : MemStore
deriving DecidableEq

/-- Source function `analyzeContent(content, context)`: rule stage, conditional AI stage
(`content.length > 10 && !ruleBasedResult.definitive`), severity merge that
replaces only on strictly higher AI severity, flag concatenation, and the
final `logModerationEvent` before returning. -/
def analyzeContent (content : Chars) (ctx : Ctx) (ai : AIOutcome) (now : Nat)
    (store : MemStore) : AnalyzeOut :=
  let a0 : Analysis :=
    { content := content, timestamp := now, severity := "none", flags := [],
      action := "none", confidence := 0, sessionId := ctx.sessionId,
      participantId := ctx.participantId, aiAnalysis := none, error := none }
  let rb := applyRuleBasedModeration content
  let a1 := { a0 with flags := a0.flags ++ rb.flags }
  let a2 :=
    if rb.severity ≠ "none" then
      { a1 with severity := rb.severity, action := rb.action, confidence := rb.confidence }
    else a1
  let aiRun := decide (content.length > 10) && !rb.definitive
  let a3 :=
    if aiRun then
      let aiR := performAIAnalysis ai
      let am :=
        if getSeverityLevel aiR.severity > getSeverityLevel a2.severity then
          { a2 with severity := aiR.severity, action := aiR.action,
                    confidence := max a2.confidence aiR.confidence }
        else a2
      { am with flags := am.flags ++ aiR.flags, aiAnalysis := aiR.details }
    else a2
  { analysis := a3, aiUsed := aiRun, store := logAnalysisEvent store a3 now }

/-- One entry of `this.emergencyProtocols`; absent JS fields are `false`/`none`. -/
structure Protocol where
  notify_moderators : Bool
  emergency_contact : Bool
  session_pause : Bool
  escalate_to_admin : Bool
  auto_response : Option String
  auto_warning : Bool
  increase_monitoring : Bool
  strike_system : Bool
  block_message : Bool
  warn_user : Bool
  log_incident : Bool
deriving DecidableEq

def interventionMsg : String :=
  "I" ++ apos.toString ++ "m concerned about what you" ++ apos.toString ++
  "ve shared. You" ++ apos.toString ++
  "re not alone, and help is available. A trained moderator will join shortly."

/-- Lookup `this.emergencyProtocols[action]`: `none` models the undefined lookup that
makes `executeModerationAction` return early. -/
def emergencyProtocols (action : String) : Option Protocol :=
  if action == "immediate_intervention" then
    some { notify_moderators := true, emergency_contact := true,
           session_pause := false, escalate_to_admin := true,
           auto_response := some interventionMsg,
           auto_warning := false, increase_monitoring := false,
           strike_system := false, block_message := false,
           warn_user := false, log_incident := false }
  else if action == "warn_and_monitor" then
    some { notify_moderators := true, emergency_contact := false,
           session_pause := false, escalate_to_admin := false,
           auto_response := none,
           auto_warning := true, increase_monitoring := true,
           strike_system := true, block_message := false,
           warn_user := false, log_incident := false }
  else if action == "auto_filter" then
    some { notify_moderators := false, emergency_contact := false,
           session_pause := false, escalate_to_admin := false,
           auto_response := none,
           auto_warning := false, increase_monitoring := false,
           strike_system := false, block_message := true,
           warn_user := true, log_incident := true }
  else none

/-- Payloads of the socket emissions issued by `executeModerationAction`. -/
inductive Payload
  | crisisAlert (sessionId participantId : String) (content : Chars)
      (severity : String) (timestamp : Nat)
  | systemMessage (type message : String) (timestamp : Nat)
  | moderationWarning (participantId type message : String) (timestamp : Nat)
  | messageFiltered (participantId reason : String) (timestamp : Nat)
deriving DecidableEq

/-- One `io.to(room).emit(event, payload)` call. -/
structure Broadcast where
  room : String
  event : String
  payload : Payload
deriving DecidableEq

/-- The `actionResults` record. -/
structure ActionReport where
  action : String
  executed : List String
  timestamp : Nat
deriving DecidableEq

structure ExecOut where
  report : Option ActionReport
  store : MemStore
  broadcasts : List Broadcast
deriving DecidableEq

/-- Source function `executeModerationAction(analysis, sessionId, participantId, io)`.
The supportive auto-response branch reads
`analysis.aiAnalysis?.supportiveResponse`, but `aiAnalysis` holds the
classifier's `details` string, on which that property access is always
`undefined`; the branch therefore never fires and is modelled as skipped. -/
def executeModerationAction (a : Analysis) (sessionId participantId : String)
    (now : Nat) (store : MemStore) : ExecOut :=
  match emergencyProtocols a.action with
  | none => { report := none, store := store, broadcasts := [] }
  | some protocol =>
    let res0 : ActionReport := { action := a.action, executed := [], timestamp := now }
    let step1 :=
      if a.action == "immediate_intervention" then
        let withNotify :=
          if protocol.notify_moderators then
            ({ res0 with executed := res0.executed ++ ["moderator_notification"] },
             [⟨"moderators", "crisis_alert",
               Payload.crisisAlert sessionId participantId a.content a.severity now⟩])
          else (res0, ([] : List Broadcast))
        let store1 := storeEmergencyAlertMem store sessionId
          { type := "crisis_intervention", participantId := participantId,
            content := a.content, severity := some "critical", autoResponse := none }
          now
        ({ withNotify.1 with executed := withNotify.1.executed ++ ["emergency_alert_logged"] },
         withNotify.2, store1)
      else (res0, ([] : List Broadcast), store)
    let step2 :=
      if a.action == "warn_and_monitor" && protocol.auto_warning then
        ({ step1.1 with executed := step1.1.executed ++ ["warning_sent"] },
         [⟨"sanctuary_" ++ sessionId, "moderation_warning",
           Payload.moderationWarning participantId "content_warning"
             "Please keep the conversation supportive and appropriate for all participants." now⟩])
      else (step1.1, ([] : List Broadcast))
    let step3 :=
      if a.action == "auto_filter" && protocol.block_message then
        ({ step2.1 with executed := step2.1.executed ++ ["message_blocked"] },
         [⟨"sanctuary_" ++ sessionId, "message_filtered",
           Payload.messageFiltered participantId "Content filtered by automated moderation" now⟩])
      else (step2.1, ([] : List Broadcast))
    { report := some step3.1, store := step1.2.2,
      broadcasts := step1.2.1 ++ step2.2 ++ step3.2 }

/-- A roster entry: the identity key `id` plus its non-identity fields,
modelled as a key/value association list. -/
structure Participant where
  id : String
  fields : List (String × String)
deriving DecidableEq

/-- The session-state fields the roster operations read and write. -/
structure SessionState where
  participants : List Participant
  currentParticipants : Nat
deriving DecidableEq

/-- JS object spread `\x7b ...old, ...nw \x7d` at lookup level: keys of `nw`
win; keys only in `old` are kept.  (The source merges plain JS objects; field
iteration order is not modelled, lookup semantics is.) -/
def mergeFields (old nw : List (String × String)) : List (String × String) :=
  old.filter (fun kv => (List.lookup kv.1 nw).isNone) ++ nw

/-- Roster update of `updateParticipant`: `findIndex(p => p.id === participantId)`,
in-place merge when found, `push(\x7b id: participantId, ...participantData \x7d)`
when absent. -/
def updateRoster : List Participant → String → List (String × String) → List Participant
  | [], pid, d => [⟨pid, d⟩]
  | p :: ps, pid, d =>
    if p.id == pid then ⟨p.id, mergeFields p.fields d⟩ :: ps
    else p :: updateRoster ps pid d

/-- A join/update or leave event against one session state. -/
inductive SessOp
  | update (pid : String) (d : List (String × String))
  | remove (pid : String)
deriving DecidableEq

/-- Body of `updateParticipant` / `removeParticipant` between the
`getSessionState` read and the `setSessionState` write: mutate the roster and
set `currentParticipants = participants.length`. -/
def applyOp (s : SessionState) : SessOp → SessionState
  | .update pid d =>
    let ps := updateRoster s.participants pid d
    { participants := ps, currentParticipants := ps.length }
  | .remove pid =>
    let ps := s.participants.filter (fun p => p.id != pid)
    { participants := ps, currentParticipants := ps.length }

def applyOps (s : SessionState) (ops : List SessOp) : SessionState :=
  ops.foldl applyOp s

def countById (roster : List Participant) (pid : String) : Nat :=
  roster.countP (fun p => p.id == pid)

/-- Roster search `participants.find(p => p.id === pid)` (first roster entry with the id). -/
def findPart (roster : List Participant) (pid : String) : Option Participant :=
  roster.find? (fun p => p.id == pid)

/-- What `setSessionState` stores: the state plus refreshed
`timestamp`/`lastUpdated` (both modelled from the clock). -/
structure SessionStored where
  state : SessionState
  timestamp : Nat
  lastUpdated : Nat
deriving DecidableEq

/-- What `setVoiceConfig` stores. -/
structure VoiceConfigStored where
  cfg : List (String × String)
  timestamp : Nat
  sessionId : String
  participantId : String
deriving DecidableEq

/-- The serialized value of a redis write. -/
inductive StoredVal
  | sess (s : SessionStored)
  | vcfg (v : VoiceConfigStored)
  | mev (m : ModEvent)
  | eal (a : EmergencyAlert)
deriving DecidableEq

/-- One redis command attempted by the manager in redis mode. -/
inductive RCmd
  | setex (key : String) (ttl : Nat) (value : StoredVal)
  | lpush (key : String) (item : String)
  | expire (key : String) (ttl : Nat)
deriving DecidableEq

/-- Outcome of one manager call in redis mode: the commands attempted in
order, the returned boolean, and whether the catch branch logged an error.
`oracle n` tells whether the n-th awaited command succeeds; the first
failure throws into the catch branch, so later commands are not attempted. -/
structure RedisRun where
  cmds : List RCmd
  ok : Bool
  errorLogged : Bool
deriving DecidableEq

/-- Redis branch of `setSessionState`: one `setex` with a 24-hour TTL. -/
def setSessionStateR (sessionId : String) (state : SessionState) (now : Nat)
    (oracle : Nat → Bool) : RedisRun :=
  let c1 := RCmd.setex ("live_sanctuary:" ++ sessionId) 86400
    (.sess { state := state, timestamp := now, lastUpdated := now })
  if oracle 0 then { cmds := [c1], ok := true, errorLogged := false }
  else { cmds := [c1], ok := false, errorLogged := true }

/-- Redis branch of `setVoiceConfig`: one `setex` with a 1-hour TTL. -/
def setVoiceConfigR (sessionId participantId : String) (cfg : List (String × String))
    (now : Nat) (oracle : Nat → Bool) : RedisRun :=
  let c1 := RCmd.setex ("voice_config:" ++ sessionId ++ ":" ++ participantId) 3600
    (.vcfg { cfg := cfg, timestamp := now, sessionId := sessionId,
             participantId := participantId })
  if oracle 0 then { cmds := [c1], ok := true, errorLogged := false }
  else { cmds := [c1], ok := false, errorLogged := true }

/-- Redis branch of `logModerationEvent`: `setex` of the entry and
`lpush`/`expire` of the per-session list, all with 7-day TTLs. -/
def logModerationEventR (sessionId : String) (event : MEventIn) (now : Nat)
    (oracle : Nat → Bool) : RedisRun :=
  let key := "moderation:" ++ sessionId ++ ":" ++ toString now
  let c1 := RCmd.setex key 604800
    (.mev { ev := event, sessionId := some sessionId, timestamp := now, id := key })
  if !oracle 0 then { cmds := [c1], ok := false, errorLogged := true }
  else
    let c2 := RCmd.lpush ("moderation_list:" ++ sessionId) key
    if !oracle 1 then { cmds := [c1, c2], ok := false, errorLogged := true }
    else
      let c3 := RCmd.expire ("moderation_list:" ++ sessionId) 604800
      if !oracle 2 then { cmds := [c1, c2, c3], ok := false, errorLogged := true }
      else { cmds := [c1, c2, c3], ok := true, errorLogged := false }

/-- Redis branch of `storeEmergencyAlert`: `setex` of the alert and
`lpush`/`expire` of the per-session list, all with 30-day TTLs.  The alert
write is attempted exactly once; the catch branch logs and returns `false`. -/
def storeEmergencyAlertR (sessionId : String) (alert : AlertInput) (now : Nat)
    (oracle : Nat → Bool) : RedisRun :=
  let key := "emergency:" ++ sessionId ++ ":" ++ toString now
  let c1 := RCmd.setex key 2592000
    (.eal { type := alert.type, participantId := alert.participantId,
            content := alert.content, autoResponse := alert.autoResponse,
            sessionId := sessionId, timestamp := now, id := key,
            severity := alert.severity.getD "high" })
  if !oracle 0 then { cmds := [c1], ok := false, errorLogged := true }
  else
    let c2 := RCmd.lpush ("emergency_list:" ++ sessionId) key
    if !oracle 1 then { cmds := [c1, c2], ok := false, errorLogged := true }
    else
      let c3 := RCmd.expire ("emergency_list:" ++ sessionId) 2592000
      if !oracle 2 then { cmds := [c1, c2, c3], ok := false, errorLogged := true }
      else { cmds := [c1, c2, c3], ok := true, errorLogged := false }

/-- TTLs carried by a command (`lpush` carries none). -/
def cmdTTLs : RCmd → List Nat
  | .setex _ ttl _ => [ttl]
  | .lpush _ _ => []
  | .expire _ ttl => [ttl]

def runTTLs (r : RedisRun) : List Nat := r.cmds.flatMap cmdTTLs

def isSetexB : RCmd → Bool
  | .setex _ _ _ => true
  | _ => false

/-! Lemmas about the rule stage: a fold characterization of the keyword and
pattern loops on the non-flag components of the running result. -/

/-- Severity, action, confidence and definitive of a running rule result. -/
def coreOf (r : RuleResult) : String × String × ℚ × Bool :=
  (r.severity, r.action, r.confidence, r.definitive)

theorem kwFold_core (cat : RuleCat) (lower : Chars) :
    ∀ (kws : List String) (r : RuleResult),
    coreOf (kws.foldl (stepKeyword cat lower) r) =
      if (kws.any fun kw => containsSub lower (lowerChars kw.data)) &&
          decide (getSeverityLevel cat.severity > getSeverityLevel r.severity) then
        (cat.severity, cat.action, (0.8 : ℚ), cat.severity == "critical")
      else coreOf r := by
  intro kws
  induction kws with
  | nil => intro r; simp
  | cons kw rest ih =>
    intro r
    by_cases hm : containsSub lower (lowerChars kw.data) = true
    · by_cases hlt : getSeverityLevel cat.severity > getSeverityLevel r.severity
      · have hstep : stepKeyword cat lower r kw =
            { r with flags := r.flags ++ [Flag.kw cat.category kw (idxOf lower (lowerChars kw.data))],
                     severity := cat.severity, action := cat.action,
                     confidence := (0.8 : ℚ), definitive := cat.severity == "critical" } := by
          simp [stepKeyword, hm, hlt]
        rw [List.foldl_cons, hstep, ih]
        simp [coreOf, hm, hlt]
      · have hstep : stepKeyword cat lower r kw =
            { r with flags := r.flags ++ [Flag.kw cat.category kw (idxOf lower (lowerChars kw.data))] } := by
          simp [stepKeyword, hm, hlt]
        rw [List.foldl_cons, hstep, ih]
        simp [coreOf, hm, hlt]
    · have hstep : stepKeyword cat lower r kw = r := by
        simp [stepKeyword, hm]
      rw [List.foldl_cons, hstep, ih]
      simp [Bool.eq_false_iff.mpr hm, hm]

theorem patFold_core (cat : RuleCat) (content : Chars) :
    ∀ (pats : List Pat) (r : RuleResult),
    coreOf (pats.foldl (stepPattern cat content) r) =
      if (pats.any fun p => patTest p content) &&
          decide (getSeverityLevel cat.severity > getSeverityLevel r.severity) then
        (cat.severity, cat.action, (0.7 : ℚ), r.definitive)
      else coreOf r := by
  intro pats
  induction pats with
  | nil => intro r; simp
  | cons p rest ih =>
    intro r
    by_cases hm : patTest p content = true
    · by_cases hlt : getSeverityLevel cat.severity > getSeverityLevel r.severity
      · have hstep : stepPattern cat content r p =
            { r with flags := r.flags ++ [Flag.pat cat.category (patToString p) (patFirstMatch p content)],
                     severity := cat.severity, action := cat.action,
                     confidence := (0.7 : ℚ) } := by
          simp [stepPattern, hm, hlt]
        rw [List.foldl_cons, hstep, ih]
        simp [coreOf, hm, hlt]
      · have hstep : stepPattern cat content r p =
            { r with flags := r.flags ++ [Flag.pat cat.category (patToString p) (patFirstMatch p content)] } := by
          simp [stepPattern, hm, hlt]
        rw [List.foldl_cons, hstep, ih]
        simp [coreOf, hm, hlt]
    · have hstep : stepPattern cat content r p = r := by
        simp [stepPattern, hm]
      rw [List.foldl_cons, hstep, ih]
      simp [Bool.eq_false_iff.mpr hm, hm]

/-- Non-flag components of one category iteration: keywords are tried first
(confidence 0.8, may set `definitive`), then patterns (confidence 0.7,
`definitive` untouched); each replaces only on strictly higher severity. -/
theorem processCat_core (content lower : Chars) (r : RuleResult) (cat : RuleCat) :
    coreOf (processCat content lower r cat) =
      if (cat.keywords.any fun kw => containsSub lower (lowerChars kw.data)) &&
          decide (getSeverityLevel cat.severity > getSeverityLevel r.severity) then
        (cat.severity, cat.action, (0.8 : ℚ), cat.severity == "critical")
      else if (cat.patterns.any fun p => patTest p content) &&
          decide (getSeverityLevel cat.severity > getSeverityLevel r.severity) then
        (cat.severity, cat.action, (0.7 : ℚ), r.definitive)
      else coreOf r := by
  unfold processCat
  rw [patFold_core]
  by_cases hkw : (cat.keywords.any fun kw => containsSub lower (lowerChars kw.data)) = true
  · by_cases hlt : getSeverityLevel cat.severity > getSeverityLevel r.severity
    · have hcore := kwFold_core cat lower cat.keywords r
      rw [if_pos (by simp [hkw, hlt])] at hcore
      have hsev : (cat.keywords.foldl (stepKeyword cat lower) r).severity = cat.severity := by
        have := congrArg (fun t => t.1) hcore
        simpa [coreOf] using this
      rw [hsev]
      simp [hkw, hlt, hcore]
    · have hcore := kwFold_core cat lower cat.keywords r
      rw [if_neg (by simp [hlt])] at hcore
      have hsev : (cat.keywords.foldl (stepKeyword cat lower) r).severity = r.severity := by
        have := congrArg (fun t => t.1) hcore
        simpa [coreOf] using this
      rw [hsev]
      simp only [hcore]
      simp [hlt]
  · have hcore := kwFold_core cat lower cat.keywords r
    rw [if_neg (by simp [hkw])] at hcore
    have hsev : (cat.keywords.foldl (stepKeyword cat lower) r).severity = r.severity := by
      have := congrArg (fun t => t.1) hcore
      simpa [coreOf] using this
    have hdef : (cat.keywords.foldl (stepKeyword cat lower) r).definitive = r.definitive := by
      have := congrArg (fun t => t.2.2.2) hcore
      simpa [coreOf] using this
    rw [hsev, hdef]
    simp only [hcore]
    simp [hkw]

/-- Severity component of one category iteration, as a `sevMax` step. -/
theorem processCat_sev (content lower : Chars) (r : RuleResult) (cat : RuleCat) :
    (processCat content lower r cat).severity =
      if catMatchesB content lower cat then sevMax r.severity cat.severity
      else r.severity := by
  have hcore := processCat_core content lower r cat
  have hsev := congrArg (fun t => t.1) hcore
  simp only [coreOf] at hsev
  unfold catMatchesB sevMax
  by_cases hkw : (cat.keywords.any fun kw => containsSub lower (lowerChars kw.data)) = true <;>
    by_cases hpat : (cat.patterns.any fun p => patTest p content) = true <;>
      by_cases hlt : getSeverityLevel cat.severity > getSeverityLevel r.severity <;>
        simp [hkw, hpat, hlt] at hsev ⊢ <;> simp [hsev]

/-- The severity of a fold of category iterations is the `sevMax` fold of the
matched categories' severities. -/
theorem catsFold_sev (content lower : Chars) :
    ∀ (cats : List RuleCat) (r : RuleResult),
    (cats.foldl (processCat content lower) r).severity =
      ((cats.filter (catMatchesB content lower)).map (fun c => c.severity)).foldl
        sevMax r.severity := by
  intro cats
  induction cats with
  | nil => intro r; simp
  | cons cat rest ih =>
    intro r
    rw [List.foldl_cons, ih]
    by_cases hm : catMatchesB content lower cat = true
    · rw [List.filter_cons_of_pos hm]
      simp [processCat_sev, hm]
    · rw [List.filter_cons_of_neg (by simp [hm])]
      simp [processCat_sev, hm]

theorem coreOf_tuple (s : RuleResult) (a b : String) (c : ℚ) (d : Bool)
    (h : coreOf s = (a, b, c, d)) :
    s.severity = a ∧ s.action = b ∧ s.confidence = c ∧ s.definitive = d := by
  simpa [coreOf, Prod.ext_iff] using h

/-- A result whose severity is still `none` was never replaced, so its action
and confidence are still the initial ones (every table severity is non-`none`). -/
theorem foldCats_none_inv (content lower : Chars) :
    ∀ (cats : List RuleCat), (∀ c ∈ cats, c.severity ≠ "none") →
    ∀ r : RuleResult, (r.severity = "none" → r.action = "none" ∧ r.confidence = 0) →
    ((cats.foldl (processCat content lower) r).severity = "none" →
      (cats.foldl (processCat content lower) r).action = "none" ∧
      (cats.foldl (processCat content lower) r).confidence = 0) := by
  intro cats
  induction cats with
  | nil => intro _ r hr; simpa using hr
  | cons cat rest ih =>
    intro hcs r hr
    rw [List.foldl_cons]
    refine ih (fun c hc => hcs c (List.mem_cons_of_mem _ hc)) _ ?_
    have hne : cat.severity ≠ "none" := hcs cat (List.mem_cons_self _ _)
    have hcore := processCat_core content lower r cat
    by_cases h1 : ((cat.keywords.any fun kw => containsSub lower (lowerChars kw.data)) &&
        decide (getSeverityLevel cat.severity > getSeverityLevel r.severity)) = true
    · rw [if_pos h1] at hcore
      obtain ⟨hs, _, _, _⟩ := coreOf_tuple _ _ _ _ _ hcore
      intro hnone
      exact absurd (hs.symm.trans hnone) hne
    · rw [if_neg h1] at hcore
      by_cases h2 : ((cat.patterns.any fun p => patTest p content) &&
          decide (getSeverityLevel cat.severity > getSeverityLevel r.severity)) = true
      · rw [if_pos h2] at hcore
        obtain ⟨hs, _, _, _⟩ := coreOf_tuple _ _ _ _ _ hcore
        intro hnone
        exact absurd (hs.symm.trans hnone) hne
      · rw [if_neg h2] at hcore
        obtain ⟨hs, ha, hc, _⟩ := coreOf_tuple _ _ _ _ _ (hcore.trans rfl)
        intro hnone
        obtain ⟨ha0, hc0⟩ := hr (hs.symm.trans hnone)
        exact ⟨ha.trans ha0, hc.trans hc0⟩

/-- Specialization to the whole rule stage: a `none` verdict has the initial
action and confidence. -/
theorem ruleNone (content : Chars) :
    (applyRuleBasedModeration content).severity = "none" →
    (applyRuleBasedModeration content).action = "none" ∧
    (applyRuleBasedModeration content).confidence = 0 := by
  unfold applyRuleBasedModeration
  exact foldCats_none_inv content (lowerChars content) moderationRules
    (by decide) initRuleResult (fun _ => by constructor <;> rfl)

theorem sevLevel_le4 (s : String) : getSeverityLevel s ≤ 4 := by
  unfold getSeverityLevel
  split_ifs <;> omega

/-- Once the running result is critical and definitive, later categories can
never replace it (no severity level exceeds 4). -/
theorem foldCats_critical (content lower : Chars) :
    ∀ (cats : List RuleCat) (r : RuleResult),
    r.severity = "critical" → r.definitive = true →
    ((cats.foldl (processCat content lower) r).severity = "critical" ∧
     (cats.foldl (processCat content lower) r).definitive = true) := by
  intro cats
  induction cats with
  | nil => intro r h1 h2; exact ⟨h1, h2⟩
  | cons cat rest ih =>
    intro r h1 h2
    rw [List.foldl_cons]
    have hcrit4 : getSeverityLevel "critical" = 4 := by decide
    have hlt : ¬ (getSeverityLevel cat.severity > getSeverityLevel r.severity) := by
      rw [h1, hcrit4]
      have := sevLevel_le4 cat.severity
      omega
    have hcore := processCat_core content lower r cat
    rw [if_neg (by simp [hlt]), if_neg (by simp [hlt])] at hcore
    obtain ⟨hs, _, _, hd⟩ := coreOf_tuple _ _ _ _ _ hcore
    exact ih _ (hs.trans h1) (hd.trans h2)

/-- A crisis-rule match makes the whole rule stage definitive. -/
theorem crisis_definitive (content : Chars)
    (hmatch : catMatchesB content (lowerChars content) crisisRule = true) :
    (applyRuleBasedModeration content).definitive = true := by
  simp only [catMatchesB] at hmatch
  have hpat : (crisisRule.patterns.any fun p => patTest p content) = false := by
    simp [crisisRule]
  rw [hpat, Bool.or_false] at hmatch
  unfold applyRuleBasedModeration moderationRules
  rw [List.foldl_cons]
  have hcore := processCat_core content (lowerChars content) initRuleResult crisisRule
  rw [if_pos (by rw [hmatch]; decide)] at hcore
  obtain ⟨hs, _, _, hd⟩ := coreOf_tuple _ _ _ _ _ hcore
  exact (foldCats_critical content (lowerChars content)
    [harassmentRule, spamRule, inappropriateRule] _
    (hs.trans rfl) (hd.trans (by decide))).2

/-- C2: the rule-stage severity is the maximum, under
none&lt;low&lt;medium&lt;high&lt;critical with replacement only on a strictly greater
level, of the severities of all matched rules; a matched rule of severity
`critical` makes the verdict definitive, and a definitive verdict makes
`analyzeContent` skip the AI stage. -/
theorem c2_severity_is_max_of_matched (content : Chars) :
    (applyRuleBasedModeration content).severity =
      ((matchedRules content).map (fun c => c.severity)).foldl sevMax "none"
    ∧ ((∃ rule, rule ∈ moderationRules ∧
          catMatchesB content (lowerChars content) rule = true ∧
          rule.severity = "critical") →
        (applyRuleBasedModeration content).definitive = true)
    ∧ (∀ (ctx : Ctx) (ai : AIOutcome) (now : Nat) (store : MemStore),
        (applyRuleBasedModeration content).definitive = true →
        (analyzeContent content ctx ai now store).aiUsed = false) := by
  refine ⟨?_, ?_, ?_⟩
  · unfold applyRuleBasedModeration matchedRules
    exact catsFold_sev content (lowerChars content) moderationRules initRuleResult
  · rintro ⟨rule, hmem, hmatch, hcrit⟩
    have hrule : rule = crisisRule := by
      have hm4 : rule = crisisRule ∨ rule = harassmentRule ∨ rule = spamRule ∨
          rule = inappropriateRule := by
        simpa [moderationRules] using hmem
      rcases hm4 with rfl | rfl | rfl | rfl
      · rfl
      · exact absurd hcrit (by decide)
      · exact absurd hcrit (by decide)
      · exact absurd hcrit (by decide)
    subst hrule
    exact crisis_definitive content hmatch
  · intro ctx ai now store hdef
    simp [analyzeContent, hdef]

/-- Witness for C2 at a crisis-keyword content. -/
def wCritical : Chars := "thinking about suicide".data

theorem c2_witness :
    (applyRuleBasedModeration wCritical).definitive = true
    ∧ (analyzeContent wCritical ⟨none, none⟩ AIOutcome.fail 0 ⟨[], []⟩).aiUsed = false := by
  have hex : ∃ rule, rule ∈ moderationRules ∧
      catMatchesB wCritical (lowerChars wCritical) rule = true ∧
      rule.severity = "critical" :=
    ⟨crisisRule, by decide, by decide, by decide⟩
  have h := c2_severity_is_max_of_matched wCritical
  exact ⟨h.2.1 hex, h.2.2 ⟨none, none⟩ AIOutcome.fail 0 ⟨[], []⟩ (h.2.1 hex)⟩

/-- C4: when the AI stage errors or returns unparsable output (the `fail`
outcome, which `performAIAnalysis` catches and turns into a severity-`none`,
confidence-0 result), `analyzeContent` returns the rule-stage verdict
unchanged — severity, action, confidence and flags all come from the rule
stage — and no error reaches the caller (`error = none`; the embedding is a
total function, mirroring that every internal exception is caught). -/
theorem c4_ai_failure_falls_back (content : Chars) (ctx : Ctx) (now : Nat) (store : MemStore) :
    (analyzeContent content ctx AIOutcome.fail now store).analysis.severity =
      (applyRuleBasedModeration content).severity
    ∧ (analyzeContent content ctx AIOutcome.fail now store).analysis.action =
      (applyRuleBasedModeration content).action
    ∧ (analyzeContent content ctx AIOutcome.fail now store).analysis.confidence =
      (applyRuleBasedModeration content).confidence
    ∧ (analyzeContent content ctx AIOutcome.fail now store).analysis.flags =
      (applyRuleBasedModeration content).flags
    ∧ (analyzeContent content ctx AIOutcome.fail now store).analysis.error = none := by
  have h0 : getSeverityLevel "none" = 0 := rfl
  cases hrun : (decide (content.length > 10) && !(applyRuleBasedModeration content).definitive) with
  | false =>
    by_cases h : (applyRuleBasedModeration content).severity = "none"
    · obtain ⟨ha, hc⟩ := ruleNone content h
      simp [analyzeContent, hrun, h, ha, hc]
    · simp [analyzeContent, hrun, h]
  | true =>
    by_cases h : (applyRuleBasedModeration content).severity = "none"
    · obtain ⟨ha, hc⟩ := ruleNone content h
      simp [analyzeContent, hrun, performAIAnalysis, h, ha, hc, h0]
    · simp [analyzeContent, hrun, performAIAnalysis, h, h0]

def cHate : Chars := "I hate everything".data

def aiLowHighConf : AIOutcome :=
  .ok ⟨some "low", some [], some "monitor", some (0.9 : ℚ), none, some "calm tone"⟩

/-- Counterexample to C3 as stated: on `"I hate everything"` the rule stage
matches `hate` (severity high, confidence 0.8) and the AI stage returns
severity low with confidence 0.9; both stages run, yet the merged confidence
stays 0.8 — it is not the maximum 0.9 of the two stage confidences, because
the source updates confidence only inside the strictly-higher-AI-severity
branch. -/
theorem c3_counterexample :
    (analyzeContent cHate ⟨some "s1", some "p1"⟩ aiLowHighConf 0 ⟨[], []⟩).aiUsed = true
    ∧ (analyzeContent cHate ⟨some "s1", some "p1"⟩ aiLowHighConf 0 ⟨[], []⟩).analysis.confidence
        = (0.8 : ℚ)
    ∧ max (applyRuleBasedModeration cHate).confidence (performAIAnalysis aiLowHighConf).confidence
        = (0.9 : ℚ)
    ∧ ¬ ((analyzeContent cHate ⟨some "s1", some "p1"⟩ aiLowHighConf 0 ⟨[], []⟩).analysis.confidence
        = max (applyRuleBasedModeration cHate).confidence
            (performAIAnalysis aiLowHighConf).confidence) := by
  have hrb : (applyRuleBasedModeration cHate).confidence = (0.8 : ℚ) := rfl
  have hai : (performAIAnalysis aiLowHighConf).confidence = (0.9 : ℚ) := rfl
  have hout : (analyzeContent cHate ⟨some "s1", some "p1"⟩ aiLowHighConf 0 ⟨[], []⟩).analysis.confidence
      = (0.8 : ℚ) := rfl
  have hmax : max (0.8 : ℚ) (0.9 : ℚ) = (0.9 : ℚ) := by norm_num
  refine ⟨by decide, hout, by rw [hrb, hai, hmax], ?_⟩
  rw [hout, hrb, hai, hmax]
  norm_num

/-- C3 (amended): when both stages run, the merged severity is the higher of
the two with the rule stage kept on ties, and the flags are the rule-stage
flags followed by the AI-stage flags without deduplication — but the merged
confidence is the maximum of the two stage confidences only when the AI
severity is strictly higher; otherwise the rule-stage confidence is kept. -/
theorem c3_amended_merge (content : Chars) (ctx : Ctx) (ai : AIOutcome) (now : Nat)
    (store : MemStore) (h : (analyzeContent content ctx ai now store).aiUsed = true) :
    (analyzeContent content ctx ai now store).analysis.severity =
      (if getSeverityLevel (performAIAnalysis ai).severity >
          getSeverityLevel (applyRuleBasedModeration content).severity
       then (performAIAnalysis ai).severity
       else (applyRuleBasedModeration content).severity)
    ∧ (analyzeContent content ctx ai now store).analysis.confidence =
      (if getSeverityLevel (performAIAnalysis ai).severity >
          getSeverityLevel (applyRuleBasedModeration content).severity
       then max (applyRuleBasedModeration content).confidence (performAIAnalysis ai).confidence
       else (applyRuleBasedModeration content).confidence)
    ∧ (analyzeContent content ctx ai now store).analysis.flags =
      (applyRuleBasedModeration content).flags ++ (performAIAnalysis ai).flags := by
  have hrun : (decide (content.length > 10) && !(applyRuleBasedModeration content).definitive)
      = true := by
    simpa [analyzeContent] using h
  by_cases hnone : (applyRuleBasedModeration content).severity = "none"
  · obtain ⟨ha, hc⟩ := ruleNone content hnone
    simp only [analyzeContent, hrun, hnone, ha, hc]
    simp
    split_ifs <;> simp
  · simp only [analyzeContent, hrun]
    simp [hnone]
    split_ifs <;> simp

/-- Witness for the amended C3 on the counterexample input (both stages run). -/
theorem c3_amended_witness :
    (analyzeContent cHate ⟨some "s1", some "p1"⟩ aiLowHighConf 0 ⟨[], []⟩).analysis.flags =
      (applyRuleBasedModeration cHate).flags ++ (performAIAnalysis aiLowHighConf).flags :=
  (c3_amended_merge cHate ⟨some "s1", some "p1"⟩ aiLowHighConf 0 ⟨[], []⟩ (by decide)).2.2

/-- C5: every verdict produced by `analyzeContent` is persisted as a
moderation event (via `logModerationEvent`) in the store handed back with
the verdict: the final store is the input store with exactly the event built
from the returned analysis appended.  In the source the `await
this.logModerationEvent(analysis)` precedes `return analysis`. -/
theorem c5_verdict_logged (content : Chars) (ctx : Ctx) (ai : AIOutcome) (now : Nat)
    (store : MemStore) :
    (analyzeContent content ctx ai now store).store.moderationLogs =
      store.moderationLogs ++
      [{ ev := { type := "content_analysis"
                 participantId := (analyzeContent content ctx ai now store).analysis.participantId
                 content := (analyzeContent content ctx ai now store).analysis.content
                 severity := (analyzeContent content ctx ai now store).analysis.severity
                 flags := (analyzeContent content ctx ai now store).analysis.flags
                 action := (analyzeContent content ctx ai now store).analysis.action
                 confidence := (analyzeContent content ctx ai now store).analysis.confidence
                 aiAnalysis := (analyzeContent content ctx ai now store).analysis.aiAnalysis }
         sessionId := (analyzeContent content ctx ai now store).analysis.sessionId
         timestamp := now
         id := "moderation:" ++
           jsShow (analyzeContent content ctx ai now store).analysis.sessionId ++
           ":" ++ toString now }] := rfl

def aiMinLength : Nat := 11

/-- C10: a message exactly at the minimum AI-analysis length (11, the least
length passing the source's `content.length > 10` guard) is routed to the AI
stage if and only if the rule stage was not definitive. -/
theorem c10_boundary_routing (content : Chars) (ctx : Ctx) (ai : AIOutcome) (now : Nat)
    (store : MemStore) (h : content.length = aiMinLength) :
    ((analyzeContent content ctx ai now store).aiUsed = true ↔
      (applyRuleBasedModeration content).definitive = false) := by
  have hlen : decide (content.length > 10) = true := by rw [h]; decide
  simp [analyzeContent, hlen]

def wBoundary : Chars := "hello there".data

theorem c10_witness :
    wBoundary.length = aiMinLength
    ∧ ((analyzeContent wBoundary ⟨none, none⟩ AIOutcome.fail 0 ⟨[], []⟩).aiUsed = true ↔
       (applyRuleBasedModeration wBoundary).definitive = false) :=
  ⟨by decide, c10_boundary_routing wBoundary ⟨none, none⟩ AIOutcome.fail 0 ⟨[], []⟩ (by decide)⟩

def cCrisis : Chars := "I want to kill myself".data

/-- C1: on `"I want to kill myself"` (any context, any AI oracle, any store)
the rule stage matches the crisis keyword `kill myself` and yields severity
`critical`, action `immediate_intervention`, `definitive = true`; the AI
stage is not invoked; and executing the returned verdict persists an
`EmergencyAlert` of type `crisis_intervention` via `storeEmergencyAlert` and
emits exactly one `crisis_alert` broadcast to the `moderators` room. -/
theorem c1_crisis_scenario (ctx : Ctx) (ai : AIOutcome) (now now2 : Nat)
    (store : MemStore) (sid pid : String) :
    (applyRuleBasedModeration cCrisis).severity = "critical"
    ∧ (applyRuleBasedModeration cCrisis).action = "immediate_intervention"
    ∧ (applyRuleBasedModeration cCrisis).definitive = true
    ∧ (applyRuleBasedModeration cCrisis).flags = [Flag.kw "crisis_detection" "kill myself" 10]
    ∧ (analyzeContent cCrisis ctx ai now store).aiUsed = false
    ∧ (analyzeContent cCrisis ctx ai now store).analysis.severity = "critical"
    ∧ (analyzeContent cCrisis ctx ai now store).analysis.action = "immediate_intervention"
    ∧ (executeModerationAction (analyzeContent cCrisis ctx ai now store).analysis
         sid pid now2 (analyzeContent cCrisis ctx ai now store).store).broadcasts =
      [⟨"moderators", "crisis_alert", Payload.crisisAlert sid pid cCrisis "critical" now2⟩]
    ∧ (executeModerationAction (analyzeContent cCrisis ctx ai now store).analysis
         sid pid now2 (analyzeContent cCrisis ctx ai now store).store).store.emergencyAlerts =
      (analyzeContent cCrisis ctx ai now store).store.emergencyAlerts ++
      [{ type := "crisis_intervention", participantId := pid, content := cCrisis,
         autoResponse := none, sessionId := sid, timestamp := now2,
         id := "emergency:" ++ sid ++ ":" ++ toString now2, severity := "critical" }] :=
  ⟨by decide, by decide, by decide, by decide, rfl, rfl, rfl, rfl, rfl⟩

def alertC6 : AlertInput :=
  { type := "crisis_intervention", participantId := "p1", content := "help".data,
    severity := some "critical", autoResponse := none }

/-- Counterexample to C6 as stated: when the first (and only) `setex` of the
alert fails, `storeEmergencyAlert` logs the failure and returns `false` after
exactly one write attempt — there is no second attempt, refuting "attempted
and retried at least once before the failure is logged". -/
theorem c6_counterexample :
    (storeEmergencyAlertR "s1" alertC6 7 (fun _ => false)).errorLogged = true
    ∧ (storeEmergencyAlertR "s1" alertC6 7 (fun _ => false)).ok = false
    ∧ (storeEmergencyAlertR "s1" alertC6 7 (fun _ => false)).cmds.countP isSetexB = 1
    ∧ ¬ (2 ≤ (storeEmergencyAlertR "s1" alertC6 7 (fun _ => false)).cmds.countP isSetexB) := by
  refine ⟨rfl, rfl, rfl, ?_⟩
  have h : (storeEmergencyAlertR "s1" alertC6 7 (fun _ => false)).cmds.countP isSetexB = 1 := rfl
  omega

/-- C6 (amended): the alert write is attempted exactly once on every path —
there is no retry — and when that first write fails the failure is logged
(the catch branch) and `false` is returned, with no further command issued;
the caller `executeModerationAction` does not inspect the returned boolean. -/
theorem c6_amended_single_attempt (sid : String) (alert : AlertInput) (now : Nat)
    (oracle : Nat → Bool) :
    (storeEmergencyAlertR sid alert now oracle).cmds.countP isSetexB = 1
    ∧ (oracle 0 = false →
        (storeEmergencyAlertR sid alert now oracle).ok = false
        ∧ (storeEmergencyAlertR sid alert now oracle).errorLogged = true
        ∧ (storeEmergencyAlertR sid alert now oracle).cmds.length = 1) := by
  cases h0 : oracle 0 with
  | false =>
    refine ⟨?_, fun _ => ⟨?_, ?_, ?_⟩⟩ <;> simp [storeEmergencyAlertR, h0, isSetexB]
  | true =>
    refine ⟨?_, fun hc => by simp at hc⟩
    cases h1 : oracle 1 with
    | false => simp [storeEmergencyAlertR, h0, h1, isSetexB]
    | true =>
      cases h2 : oracle 2 with
      | false => simp [storeEmergencyAlertR, h0, h1, h2, isSetexB]
      | true => simp [storeEmergencyAlertR, h0, h1, h2, isSetexB]

theorem c6_amended_witness :
    ((fun _ => false) : Nat → Bool) 0 = false
    ∧ (storeEmergencyAlertR "s1" alertC6 7 (fun _ => false)).ok = false
    ∧ (storeEmergencyAlertR "s1" alertC6 7 (fun _ => false)).errorLogged = true
    ∧ (storeEmergencyAlertR "s1" alertC6 7 (fun _ => false)).cmds.length = 1 :=
  ⟨rfl, (c6_amended_single_attempt "s1" alertC6 7 (fun _ => false)).2 rfl⟩

/-- C7: the TTLs written by the state store are exactly the retention
classes: one 24-hour (86400 s) `setex` per session snapshot, one 1-hour
(3600 s) `setex` per voice configuration, 7-day (604800 s) TTLs on every
command of a moderation-log write, and 30-day (2592000 s) TTLs on every
command of an emergency-alert write — for every oracle, every TTL attempted
equals the class constant, and the successful runs issue exactly the listed
TTLs. -/
theorem c7_retention_ttls (sid pid : String) (st : SessionState)
    (cfg : List (String × String)) (ev : MEventIn) (al : AlertInput) (now : Nat)
    (oracle : Nat → Bool) :
    runTTLs (setSessionStateR sid st now oracle) = [86400]
    ∧ runTTLs (setVoiceConfigR sid pid cfg now oracle) = [3600]
    ∧ (runTTLs (logModerationEventR sid ev now oracle)).all (fun t => t == 604800) = true
    ∧ runTTLs (logModerationEventR sid ev now (fun _ => true)) = [604800, 604800]
    ∧ (runTTLs (storeEmergencyAlertR sid al now oracle)).all (fun t => t == 2592000) = true
    ∧ runTTLs (storeEmergencyAlertR sid al now (fun _ => true)) = [2592000, 2592000] := by
  refine ⟨?_, ?_, ?_, rfl, ?_, rfl⟩
  · cases h0 : oracle 0 <;> simp [setSessionStateR, runTTLs, cmdTTLs, h0]
  · cases h0 : oracle 0 <;> simp [setVoiceConfigR, runTTLs, cmdTTLs, h0]
  · cases h0 : oracle 0 <;> cases h1 : oracle 1 <;> cases h2 : oracle 2 <;>
      simp [logModerationEventR, runTTLs, cmdTTLs, h0, h1, h2]
  · cases h0 : oracle 0 <;> cases h1 : oracle 1 <;> cases h2 : oracle 2 <;>
      simp [storeEmergencyAlertR, runTTLs, cmdTTLs, h0, h1, h2]

theorem applyOp_inv (s : SessionState) (op : SessOp) :
    (applyOp s op).currentParticipants = (applyOp s op).participants.length := by
  cases op <;> rfl

/-- C8: after every operation of any join/update/leave sequence, the stored
`currentParticipants` equals the stored roster length (each operation
re-establishes the invariant by construction, so it holds after every prefix
of the sequence as well). -/
theorem c8_count_matches_roster (s : SessionState) (ops : List SessOp) (h : ops ≠ []) :
    (applyOps s ops).currentParticipants = (applyOps s ops).participants.length := by
  induction ops generalizing s with
  | nil => exact absurd rfl h
  | cons op rest ih =>
    cases rest with
    | nil => exact applyOp_inv s op
    | cons op2 rest2 => exact ih (applyOp s op) (by simp)

theorem c8_witness :
    ([SessOp.update "a" [("mood", "ok")], SessOp.update "b" [], SessOp.remove "a"] ≠
      ([] : List SessOp))
    ∧ (applyOps ⟨[⟨"z", []⟩], 5⟩
        [SessOp.update "a" [("mood", "ok")], SessOp.update "b" [], SessOp.remove "a"]).currentParticipants =
      (applyOps ⟨[⟨"z", []⟩], 5⟩
        [SessOp.update "a" [("mood", "ok")], SessOp.update "b" [], SessOp.remove "a"]).participants.length :=
  ⟨by decide, c8_count_matches_roster ⟨[⟨"z", []⟩], 5⟩
    [SessOp.update "a" [("mood", "ok")], SessOp.update "b" [], SessOp.remove "a"] (by decide)⟩

/-- Merged fields resolve lookups to the update's value when present, and to
the old value otherwise (JS spread: later keys win). -/
theorem mergeFields_lookup (k : String) (nw : List (String × String)) :
    ∀ old : List (String × String),
    List.lookup k (mergeFields old nw) = (List.lookup k nw).or (List.lookup k old) := by
  intro old
  induction old with
  | nil => simp [mergeFields]
  | cons kv old' ih =>
    obtain ⟨k0, v0⟩ := kv
    by_cases h : (List.lookup k0 nw).isNone = true
    · have hstep : mergeFields ((k0, v0) :: old') nw = (k0, v0) :: mergeFields old' nw := by
        simp [mergeFields, h]
      rw [hstep]
      by_cases hk : k = k0
      · subst hk
        have hn : List.lookup k nw = none := Option.isNone_iff_eq_none.mp h
        simp [List.lookup, hn]
      · have hbeq : (k == k0) = false := by simp [hk]
        simp [List.lookup, hbeq, ih]
    · have hstep : mergeFields ((k0, v0) :: old') nw = mergeFields old' nw := by
        simp [mergeFields, h]
      rw [hstep, ih]
      by_cases hk : k = k0
      · subst hk
        cases hlk : List.lookup k nw with
        | none => exact absurd (by simp [hlk]) h
        | some w => simp [List.lookup, hlk]
      · have hbeq : (k == k0) = false := by simp [hk]
        simp [List.lookup, hbeq]

theorem updateRoster_count (pid : String) (d : List (String × String)) :
    ∀ roster : List Participant,
    countById (updateRoster roster pid d) pid = max (countById roster pid) 1 := by
  intro roster
  induction roster with
  | nil => simp [updateRoster, countById]
  | cons p ps ih =>
    by_cases h : (p.id == pid) = true
    · have hstep : updateRoster (p :: ps) pid d = ⟨p.id, mergeFields p.fields d⟩ :: ps := by
        simp [updateRoster, h]
      rw [hstep]
      simp [countById, List.countP_cons, h]
    · have hstep : updateRoster (p :: ps) pid d = p :: updateRoster ps pid d := by
        simp [updateRoster, h]
      rw [hstep]
      unfold countById at ih ⊢
      simp [List.countP_cons, h, ih]

theorem updateRoster_found (pid : String) (d : List (String × String)) :
    ∀ (roster : List Participant) (p : Participant),
    findPart roster pid = some p →
    (updateRoster roster pid d).length = roster.length
    ∧ findPart (updateRoster roster pid d) pid = some ⟨p.id, mergeFields p.fields d⟩ := by
  intro roster
  induction roster with
  | nil => intro p hp; simp [findPart] at hp
  | cons q ps ih =>
    intro p hp
    by_cases h : (q.id == pid) = true
    · have hq : q = p := by
        simpa [findPart, List.find?, h] using hp
      subst hq
      have hstep : updateRoster (q :: ps) pid d = ⟨q.id, mergeFields q.fields d⟩ :: ps := by
        simp [updateRoster, h]
      rw [hstep]
      exact ⟨by simp, by simp [findPart, List.find?, h]⟩
    · have hp' : findPart ps pid = some p := by
        simpa [findPart, List.find?, h] using hp
      have hstep : updateRoster (q :: ps) pid d = q :: updateRoster ps pid d := by
        simp [updateRoster, h]
      rw [hstep]
      obtain ⟨hlen, hfind⟩ := ih p hp'
      exact ⟨by simp [hlen], by simpa [findPart, List.find?, h] using hfind⟩

/-- C9: `updateParticipant` is idempotent on roster membership — an update
leaves exactly one entry for the id when there was at most one (the count
becomes `max old 1`, so repetition never adds entries); when the participant
is already present, the roster length is unchanged and the first matching
entry is updated in place, keyed by id; and the merged fields are
last-write-wins on non-identity fields (the update's value wins every lookup
it binds, the old value is kept otherwise). -/
theorem c9_update_idempotent (roster : List Participant) (pid : String)
    (d : List (String × String)) (p : Participant) (k : String) :
    countById (updateRoster roster pid d) pid = max (countById roster pid) 1
    ∧ (findPart roster pid = some p →
        (updateRoster roster pid d).length = roster.length
        ∧ findPart (updateRoster roster pid d) pid = some ⟨p.id, mergeFields p.fields d⟩)
    ∧ List.lookup k (mergeFields p.fields d) = (List.lookup k d).or (List.lookup k p.fields) :=
  ⟨updateRoster_count pid d roster, updateRoster_found pid d roster p,
   mergeFields_lookup k d p.fields⟩

def roster9 : List Participant := [⟨"alice", [("mood", "ok"), ("mic", "on")]⟩]

theorem c9_witness :
    findPart roster9 "alice" = some ⟨"alice", [("mood", "ok"), ("mic", "on")]⟩
    ∧ (updateRoster roster9 "alice" [("mood", "great")]).length = roster9.length
    ∧ List.lookup "mood" (mergeFields [("mood", "ok"), ("mic", "on")] [("mood", "great")]) =
      (List.lookup "mood" [("mood", "great")]).or
        (List.lookup "mood" [("mood", "ok"), ("mic", "on")]) :=
  ⟨by decide,
   ((c9_update_idempotent roster9 "alice" [("mood", "great")]
      ⟨"alice", [("mood", "ok"), ("mic", "on")]⟩ "mood").2.1 (by decide)).1,
   (c9_update_idempotent roster9 "alice" [("mood", "great")]
      ⟨"alice", [("mood", "ok"), ("mic", "on")]⟩ "mood").2.2⟩

end Veilo
